import Mathlib

/-!
Shallow embedding of `src/app/__init__.py` (GitPyFlow): a Flask application
factory `create_app` registering two GET routes.

The application code under `src/` is the authority for the handler bodies and
the registered route patterns.  The routing behaviour itself (URL matching,
the `<int:...>` path converter, the 404 fallback) lives in the Flask/werkzeug
framework, which is not part of this repository; those parts are modelled
from the spec and from werkzeug's documented defaults: the default integer
converter matches the regular expression \d+ (one or more ASCII digits, no
sign), converts the matched text with Python's `int`, and an unmatched path
produces the framework's default 404 response.  A request path is represented
by its list of slash-separated segments (the root path `/` has no segments),
and only the GET surface described by the spec is modelled.
-/

/-- A decimal-digit parser with accumulator, mirroring how Python's `int`
evaluates a string of ASCII digits: left fold `acc * 10 + digit`. -/
def parseDigitsAux (acc : Nat) : List Char → Nat
  | [] => acc
  | c :: cs => parseDigitsAux (acc * 10 + (c.toNat - '0'.toNat)) cs

/-- Modelled from the spec: werkzeug's default `int` path converter (regex
\d+) accepts a path segment iff it is a nonempty string of ASCII digits.
In particular a leading minus sign is rejected. -/
def intConverterAccepts (s : String) : Bool :=
  !s.data.isEmpty && s.data.all Char.isDigit

/-- Modelled from the spec: the value the `int` converter passes to the
handler, namely Python `int` applied to the accepted digit string.  Python
integers are arbitrary precision, embedded as `Int`. -/
def intConverterValue (s : String) : Int :=
  Int.ofNat (parseDigitsAux 0 s.data)

/-- The two view functions defined inside `create_app`, as tags; `invoke`
gives their bodies. -/
inductive Handler where
  | index
  | add
  deriving DecidableEq, Repr

/-- One segment of a route pattern: a literal segment or an `<int:name>`
converter segment. -/
inductive PSeg where
  | lit (s : String)
  | int (name : String)
  deriving DecidableEq, Repr

/-- A registered URL rule: a pattern (as segments) and the handler it maps
to.  `[]` is the root pattern `/`. -/
structure Rule where
  pattern : List PSeg
  handler : Handler
  deriving DecidableEq, Repr

/-- The application object returned by `create_app`: its registered URL
rules.  The source stores nothing else that any route reads: the `config`
argument is never used, and the handlers close over no mutable state. -/
structure App where
  rules : List Rule
  deriving DecidableEq, Repr

/-- `index` view function: `return 'Hello Flask!'` (source line 10). -/
def index : String := "Hello Flask!"

/-- `add` view function (source line 14):
`return f"{num1} + {num2} = {num1 + num2 + 1}"`. -/
def add (num1 num2 : Int) : String :=
  toString num1 ++ " + " ++ toString num2 ++ " = " ++ toString (num1 + num2 + 1)

/-- `create_app(config=None)` (source lines 5-16): builds the app and
registers `/` -> `index` and `/add/<int:num1>/<int:num2>` -> `add`.  The
`config` parameter is accepted (any value, default `None` = `none`) and
never read. -/
def create_app {α : Type} (config : Option α := none) : App :=
  { rules := [ { pattern := [], handler := .index },
               { pattern := [.lit "add", .int "num1", .int "num2"], handler := .add } ] }

/-- Match one pattern segment against one path segment, returning the list
of converter values it binds (empty for a literal). -/
def matchSeg : PSeg → String → Option (List Int)
  | .lit l, s => if l = s then some [] else none
  | .int _, s => if intConverterAccepts s then some [intConverterValue s] else none

/-- Match a whole pattern against a whole path, accumulating converter
values in order. -/
def matchSegs : List PSeg → List String → Option (List Int)
  | [], [] => some []
  | p :: ps, s :: ss =>
      match matchSeg p s with
      | none => none
      | some vs =>
          match matchSegs ps ss with
          | none => none
          | some vss => some (vs ++ vss)
  | _ :: _, [] => none
  | [], _ :: _ => none

/-- First rule whose pattern matches the path, with the bound converter
values (werkzeug tries rules in registration order). -/
def firstMatch : List Rule → List String → Option (Handler × List Int)
  | [], _ => none
  | r :: rs, path =>
      match matchSegs r.pattern path with
      | some vs => some (r.handler, vs)
      | none => firstMatch rs path

/-- Call a view function on the values bound by the converters.  A call with
the wrong number of arguments would raise `TypeError` in Python (`none`
here); the registered patterns make this unreachable. -/
def invoke : Handler → List Int → Option String
  | .index, [] => some index
  | .add, [n1, n2] => some (add n1 n2)
  | _, _ => none

/-- An HTTP response: status code and body. -/
structure Response where
  status : Nat
  body : String
  deriving DecidableEq, Repr

/-- Modelled from the spec: the framework's default not-found body
(werkzeug's standard 404 page; its exact text is framework detail the spec
leaves unspecified). -/
def notFoundBody : String :=
  "<!doctype html><title>404 Not Found</title>"

/-- Modelled from the spec: the framework's default 404 response for an
unmatched path. -/
def notFoundResponse : Response :=
  { status := 404, body := notFoundBody }

/-- Modelled from the spec: the framework's 500 response for an unhandled
exception inside a handler (unreachable in this application). -/
def internalErrorResponse : Response :=
  { status := 500, body := "<!doctype html><title>500 Internal Server Error</title>" }

/-- Process one GET request: route the path, run the matched view function,
wrap its string in a 200 response; 404 when no rule matches. -/
def dispatch (app : App) (path : List String) : Response :=
  match firstMatch app.rules path with
  | none => notFoundResponse
  | some (h, args) =>
      match invoke h args with
      | some body => { status := 200, body := body }
      | none => internalErrorResponse

/-- Process one request against the application state; the source's handlers
mutate nothing, so the state after the request is the state before it. -/
def step (app : App) (path : List String) : Response × App :=
  (dispatch app path, app)

/-- Process a sequence of requests in order, threading the application
state. -/
def handleAll (app : App) : List (List String) → List Response × App
  | [] => ([], app)
  | r :: rs =>
      let (resp, app') := step app r
      let (resps, app'') := handleAll app' rs
      (resp :: resps, app'')

/-- Python integer addition inside the `add` handler: arbitrary-precision,
never raises, modelled in `Except` to make a raise expressible. -/
def pyIntAdd (a b : Int) : Except String Int :=
  Except.ok (a + b)

/-- Python `str` conversion of an integer in the f-string: total, never
raises. -/
def pyStrOfInt (n : Int) : Except String String :=
  Except.ok (toString n)

/-- The `add` view function with each Python evaluation step lifted into
`Except`, so that a raised exception would surface as `Except.error`:
`f"{num1} + {num2} = {num1 + num2 + 1}"`. -/
def addChecked (num1 num2 : Int) : Except String String := do
  let s₁ ← pyIntAdd num1 num2
  let s₂ ← pyIntAdd s₁ 1
  let d₁ ← pyStrOfInt num1
  let d₂ ← pyStrOfInt num2
  let ds ← pyStrOfInt s₂
  Except.ok (d₁ ++ " + " ++ d₂ ++ " = " ++ ds)

/-- The decimal digit characters of `n`, most significant first: the list
`Nat.toDigits 10 n` computes once its fuel is sufficient. -/
def digitChars (n : Nat) : List Char :=
  if h : n < 10 then [Nat.digitChar n]
  else digitChars (n / 10) ++ [Nat.digitChar (n % 10)]
decreasing_by
  exact Nat.div_lt_self (by omega) (by omega)

theorem digitChars_lt (n : Nat) (h : n < 10) : digitChars n = [Nat.digitChar n] := by
  rw [digitChars]
  simp [h]

theorem digitChars_ge (n : Nat) (h : ¬ n < 10) :
    digitChars n = digitChars (n / 10) ++ [Nat.digitChar (n % 10)] := by
  rw [digitChars]
  simp [h]

theorem toDigitsCore_eq_digitChars (fuel : Nat) :
    ∀ (n : Nat) (ds : List Char), n < fuel →
      Nat.toDigitsCore 10 fuel n ds = digitChars n ++ ds := by
  induction fuel with
  | zero => intro n ds h; omega
  | succ fuel ih =>
      intro n ds h
      by_cases h10 : n < 10
      · have hdiv : n / 10 = 0 := Nat.div_eq_of_lt h10
        have hmod : n % 10 = n := Nat.mod_eq_of_lt h10
        simp [Nat.toDigitsCore, hdiv, hmod, digitChars_lt n h10]
      · have hdiv : n / 10 ≠ 0 := by
          intro hc
          exact h10 (by omega)
        have hlt : n / 10 < fuel := by
          have hx : n / 10 < n := Nat.div_lt_self (by omega) (by decide)
          omega
        simp only [Nat.toDigitsCore, hdiv, if_false]
        rw [ih (n / 10) _ hlt, digitChars_ge n h10]
        simp

theorem repr_data (n : Nat) : (Nat.repr n).data = digitChars n := by
  show (List.asString (Nat.toDigitsCore 10 (n + 1) n [])).data = digitChars n
  rw [toDigitsCore_eq_digitChars (n + 1) n [] (Nat.lt_succ_self n)]
  simp [List.asString]

theorem digitChar_isDigit : ∀ m < 10, (Nat.digitChar m).isDigit = true := by decide

theorem digitChar_val : ∀ m < 10, (Nat.digitChar m).toNat - '0'.toNat = m := by decide

theorem digitChar_ge48 : ∀ m < 10, '0'.toNat ≤ (Nat.digitChar m).toNat := by decide

theorem digitChars_ne_nil (n : Nat) : digitChars n ≠ [] := by
  by_cases h : n < 10
  · rw [digitChars_lt n h]; simp
  · rw [digitChars_ge n h]; simp

theorem digitChars_all_digit (n : Nat) : ∀ c ∈ digitChars n, c.isDigit = true := by
  induction n using Nat.strong_induction_on with
  | _ n ih =>
      by_cases h : n < 10
      · rw [digitChars_lt n h]
        intro c hc
        rw [List.mem_singleton] at hc
        subst hc
        exact digitChar_isDigit n h
      · rw [digitChars_ge n h]
        intro c hc
        rcases List.mem_append.mp hc with hc | hc
        · exact ih (n / 10) (Nat.div_lt_self (by omega) (by omega)) c hc
        · rw [List.mem_singleton] at hc
          subst hc
          exact digitChar_isDigit (n % 10) (Nat.mod_lt n (by omega))

theorem parseDigitsAux_nil (acc : Nat) : parseDigitsAux acc [] = acc := rfl

theorem parseDigitsAux_cons (acc : Nat) (c : Char) (cs : List Char) :
    parseDigitsAux acc (c :: cs) = parseDigitsAux (acc * 10 + (c.toNat - '0'.toNat)) cs := rfl

theorem parseDigitsAux_append (l₁ l₂ : List Char) (acc : Nat) :
    parseDigitsAux acc (l₁ ++ l₂) = parseDigitsAux (parseDigitsAux acc l₁) l₂ := by
  induction l₁ generalizing acc with
  | nil => rfl
  | cons c cs ih =>
      rw [List.cons_append, parseDigitsAux_cons, parseDigitsAux_cons, ih]

theorem parseDigitsAux_digitChars (n : Nat) :
    ∀ acc, parseDigitsAux acc (digitChars n) = acc * 10 ^ (digitChars n).length + n := by
  induction n using Nat.strong_induction_on with
  | _ n ih =>
      intro acc
      by_cases h : n < 10
      · rw [digitChars_lt n h]
        have hd := digitChar_val n h
        have h48 := digitChar_ge48 n h
        rw [parseDigitsAux_cons, parseDigitsAux_nil, List.length_singleton, pow_one]
        omega
      · rw [digitChars_ge n h, parseDigitsAux_append]
        rw [ih (n / 10) (Nat.div_lt_self (by omega) (by decide)) acc]
        have hd := digitChar_val (n % 10) (Nat.mod_lt n (by omega))
        have h48 := digitChar_ge48 (n % 10) (Nat.mod_lt n (by omega))
        have hdm := Nat.div_add_mod n 10
        rw [parseDigitsAux_cons, parseDigitsAux_nil, List.length_append,
          List.length_singleton, pow_succ]
        have hpow : acc * 10 ^ (digitChars (n / 10)).length * 10
            = acc * (10 ^ (digitChars (n / 10)).length * 10) := by
          rw [Nat.mul_assoc]
        omega

theorem parse_repr (n : Nat) : parseDigitsAux 0 (Nat.repr n).data = n := by
  rw [repr_data, parseDigitsAux_digitChars n 0]
  simp

theorem repr_injective {m n : Nat} (h : Nat.repr m = Nat.repr n) : m = n := by
  have hm := parse_repr m
  rw [h, parse_repr n] at hm
  exact hm.symm

theorem repr_all_digit (n : Nat) : ∀ c ∈ (Nat.repr n).data, c.isDigit = true := by
  rw [repr_data]
  exact digitChars_all_digit n

theorem repr_data_ne_nil (n : Nat) : (Nat.repr n).data ≠ [] := by
  rw [repr_data]
  exact digitChars_ne_nil n

theorem accepts_repr (n : Nat) : intConverterAccepts (Nat.repr n) = true := by
  unfold intConverterAccepts
  rw [Bool.and_eq_true, Bool.not_eq_true', List.isEmpty_eq_false_iff_exists_mem]
  constructor
  · rcases List.exists_mem_of_ne_nil _ (repr_data_ne_nil n) with ⟨c, hc⟩
    exact ⟨c, hc⟩
  · rw [List.all_eq_true]
    exact repr_all_digit n

theorem value_repr (n : Nat) : intConverterValue (Nat.repr n) = Int.ofNat n := by
  unfold intConverterValue
  rw [parse_repr]

theorem toString_intOfNat (n : Nat) : toString (Int.ofNat n) = Nat.repr n := rfl

/-- Complete characterization of the application's GET surface: the root
path runs `index`; `/add/x/y` with both segments accepted by the `int`
converter runs `add` on the converted values; every other path is the
framework 404.  In particular the 500 branch is unreachable. -/
theorem dispatch_create_app {α : Type} (c : Option α) (path : List String) :
    dispatch (create_app c) path =
      match path with
      | [] => { status := 200, body := index }
      | [s₀, s₁, s₂] =>
          if (s₀ = "add" && intConverterAccepts s₁ && intConverterAccepts s₂) = true
          then { status := 200, body := add (intConverterValue s₁) (intConverterValue s₂) }
          else notFoundResponse
      | _ => notFoundResponse := by
  match path with
  | [] => rfl
  | [s₀] =>
      by_cases hs : s₀ = "add" <;>
        simp [dispatch, firstMatch, matchSegs, matchSeg, hs, eq_comm]
  | [s₀, s₁] =>
      by_cases hs : s₀ = "add" <;>
        by_cases h₁ : intConverterAccepts s₁ <;>
          simp [dispatch, firstMatch, matchSegs, matchSeg, hs, h₁, eq_comm]
  | [s₀, s₁, s₂] =>
      by_cases hs : s₀ = "add" <;>
        by_cases h₁ : intConverterAccepts s₁ <;>
          by_cases h₂ : intConverterAccepts s₂ <;>
            simp [dispatch, firstMatch, matchSegs, matchSeg, invoke, hs, h₁, h₂, eq_comm]
  | s₀ :: s₁ :: s₂ :: s₃ :: t =>
      by_cases hs : s₀ = "add" <;>
        by_cases h₁ : intConverterAccepts s₁ <;>
          by_cases h₂ : intConverterAccepts s₂ <;>
            simp [dispatch, firstMatch, matchSegs, matchSeg, hs, h₁, h₂, eq_comm]

/-- `/add/x/y` with both segments accepted by the converter reaches the
`add` view function on the converted values and returns 200. -/
theorem dispatch_add_accepted {α : Type} (c : Option α) (x y : String)
    (hx : intConverterAccepts x = true) (hy : intConverterAccepts y = true) :
    dispatch (create_app c) ["add", x, y] =
      { status := 200, body := add (intConverterValue x) (intConverterValue y) } := by
  rw [dispatch_create_app]
  simp [hx, hy]

/-- Every response of the application is either a handler 200 or the
framework 404: the 500 branch is unreachable. -/
theorem dispatch_status {α : Type} (c : Option α) (path : List String) :
    (dispatch (create_app c) path).status = 200 ∨
      dispatch (create_app c) path = notFoundResponse := by
  rw [dispatch_create_app]
  match path with
  | [] => exact Or.inl rfl
  | [s₀] => exact Or.inr rfl
  | [s₀, s₁] => exact Or.inr rfl
  | [s₀, s₁, s₂] =>
      by_cases h : (s₀ = "add" && intConverterAccepts s₁ && intConverterAccepts s₂) = true
      · exact Or.inl (by simp [h])
      · exact Or.inr (by simp [h])
  | s₀ :: s₁ :: s₂ :: s₃ :: t => exact Or.inr rfl

/-- `/add/x/y` with a segment the converter rejects never reaches a view
function: no rule matches. -/
theorem firstMatch_add_rejected {α : Type} (c : Option α) (x y : String)
    (h : intConverterAccepts x = false ∨ intConverterAccepts y = false) :
    firstMatch (create_app c).rules ["add", x, y] = none := by
  rcases h with h | h
  · simp [create_app, firstMatch, matchSegs, matchSeg, h]
  · by_cases hx : intConverterAccepts x = true
    · simp [create_app, firstMatch, matchSegs, matchSeg, h, hx]
    · simp [create_app, firstMatch, matchSegs, matchSeg, hx]

/-- Inversion of routing: a matched rule is either the root rule with no
captured values, or the add rule on a three-segment `/add/x/y` path whose
last two segments the converter accepted. -/
theorem firstMatch_inv {α : Type} (c : Option α) (path : List String)
    (h : Handler) (vs : List Int)
    (hm : firstMatch (create_app c).rules path = some (h, vs)) :
    (h = .index ∧ vs = [] ∧ path = []) ∨
    (∃ x y, h = .add ∧ path = ["add", x, y] ∧ intConverterAccepts x = true ∧
      intConverterAccepts y = true ∧
      vs = [intConverterValue x, intConverterValue y]) := by
  match path with
  | [] =>
      left
      have : some (Handler.index, ([] : List Int)) = some (h, vs) := hm
      cases this
      exact ⟨rfl, rfl, rfl⟩
  | [s₀] =>
      by_cases hs : s₀ = "add" <;>
        simp [create_app, firstMatch, matchSegs, matchSeg, hs, eq_comm] at hm
  | [s₀, s₁] =>
      by_cases hs : s₀ = "add" <;>
        by_cases h₁ : intConverterAccepts s₁ = true <;>
          simp [create_app, firstMatch, matchSegs, matchSeg, hs, h₁, eq_comm] at hm
  | [s₀, s₁, s₂] =>
      by_cases hs : s₀ = "add"
      · by_cases h₁ : intConverterAccepts s₁ = true <;>
          by_cases h₂ : intConverterAccepts s₂ = true <;>
            simp [create_app, firstMatch, matchSegs, matchSeg, hs, h₁, h₂, eq_comm] at hm
        right
        refine ⟨s₁, s₂, ?_, ?_, h₁, h₂, ?_⟩
        · exact hm.1
        · rw [hs]
        · exact hm.2
      · simp [create_app, firstMatch, matchSegs, matchSeg, hs, eq_comm] at hm
  | s₀ :: s₁ :: s₂ :: s₃ :: t =>
      by_cases hs : s₀ = "add" <;>
        by_cases h₁ : intConverterAccepts s₁ = true <;>
          by_cases h₂ : intConverterAccepts s₂ = true <;>
            simp [create_app, firstMatch, matchSegs, matchSeg, hs, h₁, h₂, eq_comm] at hm

/-- Rendering the converted values with Python `str` inside the f-string
produces the decimal numerals of the underlying naturals. -/
theorem add_intOfNat (a b : Nat) :
    add (Int.ofNat a) (Int.ofNat b) =
      Nat.repr a ++ " + " ++ Nat.repr b ++ " = " ++ Nat.repr (a + b + 1) := by
  have h : Int.ofNat a + Int.ofNat b + 1 = Int.ofNat (a + b + 1) := by
    rw [Int.ofNat_eq_coe, Int.ofNat_eq_coe, Int.ofNat_eq_coe]
    push_cast
    ring
  rw [add, h, toString_intOfNat, toString_intOfNat, toString_intOfNat]

/-- The response to `/add/a/b` for decimal numerals of naturals `a`, `b`:
status 200 and the f-string body with the extra `+ 1`. -/
theorem dispatch_add_repr {α : Type} (c : Option α) (a b : Nat) :
    dispatch (create_app c) ["add", Nat.repr a, Nat.repr b] =
      { status := 200,
        body := Nat.repr a ++ " + " ++ Nat.repr b ++ " = " ++ Nat.repr (a + b + 1) } := by
  rw [dispatch_add_accepted c _ _ (accepts_repr a) (accepts_repr b), value_repr, value_repr,
    add_intOfNat]

theorem repr_ne_space (n : Nat) : ∀ c ∈ (Nat.repr n).data, c ≠ ' ' := by
  intro ch hc he
  have hd := repr_all_digit n ch hc
  rw [he] at hd
  exact absurd hd (by decide)

/-- Cancellation for concatenations delimited by a character absent from
both prefixes. -/
theorem no_space_append_inj (u : List Char) :
    ∀ (v r₁ r₂ : List Char), (∀ c ∈ u, c ≠ ' ') → (∀ c ∈ v, c ≠ ' ') →
      u ++ ' ' :: r₁ = v ++ ' ' :: r₂ → u = v ∧ r₁ = r₂ := by
  induction u with
  | nil =>
      intro v r₁ r₂ _ hv h
      cases v with
      | nil => simpa using h
      | cons d ds =>
          rw [List.nil_append, List.cons_append, List.cons.injEq] at h
          exact absurd h.1.symm (hv d (List.mem_cons_self d ds))
  | cons cu cus ih =>
      intro v r₁ r₂ hu hv h
      cases v with
      | nil =>
          rw [List.nil_append, List.cons_append, List.cons.injEq] at h
          exact absurd h.1 (hu cu (List.mem_cons_self cu cus))
      | cons d ds =>
          rw [List.cons_append, List.cons_append, List.cons.injEq] at h
          have hrec := ih ds r₁ r₂ (fun c hc => hu c (List.mem_cons_of_mem cu hc))
            (fun c hc => hv c (List.mem_cons_of_mem d hc)) h.2
          exact ⟨by rw [h.1, hrec.1], hrec.2⟩

/-- The two operands are displayed in request order: swapping distinct
operands changes the body, because the text before the first space is the
first operand's numeral. -/
theorem add_repr_inj (a b s t : Nat)
    (h : Nat.repr a ++ " + " ++ Nat.repr b ++ " = " ++ Nat.repr s =
         Nat.repr b ++ " + " ++ Nat.repr a ++ " = " ++ Nat.repr t) : a = b := by
  have hd := congrArg String.data h
  simp only [String.data_append] at hd
  simp only [List.append_assoc, List.cons_append, List.nil_append] at hd
  have hinj := no_space_append_inj (Nat.repr a).data (Nat.repr b).data _ _
    (repr_ne_space a) (repr_ne_space b) hd
  exact repr_injective (String.ext hinj.1)

theorem intConverterValue_nonneg (s : String) : 0 ≤ intConverterValue s :=
  Int.ofNat_nonneg _

/-- C1: for every pair of integers accepted by the routing layer (the
decimal numerals of naturals `a`, `b`), `GET /add/a/b` returns status 200
with body `"{a} + {b} = {s}"` where `s = a + b + 1`, one more than the
mathematical sum; in particular `GET /add/2/3` returns body `"2 + 3 = 6"`. -/
theorem C1_add_route_body {α : Type} (c : Option α) (a b : Nat) :
    dispatch (create_app c) ["add", Nat.repr a, Nat.repr b] =
      { status := 200,
        body := Nat.repr a ++ " + " ++ Nat.repr b ++ " = " ++ Nat.repr (a + b + 1) } ∧
    dispatch (create_app c) ["add", "2", "3"] = { status := 200, body := "2 + 3 = 6" } := by
  refine ⟨dispatch_add_repr c a b, ?_⟩
  rfl

/-- C2: every GET request to `/` (the empty segment list) returns status
200 with body exactly `"Hello Flask!"`, and processing it leaves the
application state unchanged (no side effects). -/
theorem C2_root_route {α : Type} (c : Option α) :
    dispatch (create_app c) [] = { status := 200, body := "Hello Flask!" } ∧
    step (create_app c) [] = ({ status := 200, body := "Hello Flask!" }, create_app c) :=
  ⟨rfl, rfl⟩

/-- C3: a `/add/x/y` request in which the converter rejects `x` or `y`
matches no rule (so `add` is never invoked) and yields the framework 404;
and this routing failure is the only error path: every response that is not
a 200 is the framework 404. -/
theorem C3_type_coercion_404 {α : Type} (c : Option α) :
    (∀ x y : String, intConverterAccepts x = false ∨ intConverterAccepts y = false →
      firstMatch (create_app c).rules ["add", x, y] = none ∧
      dispatch (create_app c) ["add", x, y] = notFoundResponse) ∧
    (∀ path : List String, (dispatch (create_app c) path).status ≠ 200 →
      dispatch (create_app c) path = notFoundResponse) := by
  constructor
  · intro x y h
    have hnone := firstMatch_add_rejected c x y h
    refine ⟨hnone, ?_⟩
    rw [dispatch, hnone]
  · intro path hne
    rcases dispatch_status c path with h200 | h404
    · exact absurd h200 hne
    · exact h404

/-- C3 witness: `GET /add/2/foo` matches no rule and returns the 404
response. -/
theorem C3_type_coercion_404_witness :
    firstMatch (create_app (α := Unit)).rules ["add", "2", "foo"] = none ∧
    dispatch (create_app (α := Unit)) ["add", "2", "foo"] = notFoundResponse :=
  (C3_type_coercion_404 (none : Option Unit)).1 "2" "foo" (Or.inr (by decide))

/-- C4: werkzeug's default integer converter does not accept negative
integers, so of the claim's two admissible outcomes the 404 one holds:
a GET for `add` with segments `-1` and `5` matches no rule and
returns status 404, not the 200
response. -/
theorem C4_negative_operand {α : Type} (c : Option α) :
    intConverterAccepts "-1" = false ∧
    firstMatch (create_app c).rules ["add", "-1", "5"] = none ∧
    dispatch (create_app c) ["add", "-1", "5"] = notFoundResponse ∧
    (dispatch (create_app c) ["add", "-1", "5"]).status = 404 :=
  ⟨rfl, rfl, rfl, rfl⟩

/-- C5: the handlers are deterministic, stateless and side-effect-free:
processing any request sequence leaves the application unchanged and sends
each request to the same pure function of the request alone, so repeated
identical requests (e.g. the sequence run twice) receive identical
responses. -/
theorem C5_stateless {α : Type} (c : Option α) (reqs : List (List String)) :
    handleAll (create_app c) reqs = (reqs.map (dispatch (create_app c)), create_app c) ∧
    handleAll (create_app c) (reqs ++ reqs) =
      (reqs.map (dispatch (create_app c)) ++ reqs.map (dispatch (create_app c)),
        create_app c) := by
  have hmain : ∀ rs : List (List String),
      handleAll (create_app c) rs = (rs.map (dispatch (create_app c)), create_app c) := by
    intro rs
    induction rs with
    | nil => rfl
    | cons r rs ih => simp [handleAll, step, ih]
  refine ⟨hmain reqs, ?_⟩
  rw [hmain (reqs ++ reqs), List.map_append]

/-- C6: the `add` handler raises no exception for any integer inputs: with
every Python evaluation step lifted into `Except`, the computation always
returns `ok` with the f-string body — the error branch is unreachable. -/
theorem C6_add_total (num1 num2 : Int) :
    addChecked num1 num2 = Except.ok (add num1 num2) := rfl

/-- C7: `create_app` returns, for every config value, an application with
exactly two registered rules: `/` mapped to `index` and
`/add/<int:num1>/<int:num2>` mapped to `add`; routing sends the root path
to `index` and a well-formed add path to `add`. -/
theorem C7_two_routes {α : Type} (c : Option α) :
    (create_app c).rules =
      [ { pattern := [], handler := .index },
        { pattern := [.lit "add", .int "num1", .int "num2"], handler := .add } ] ∧
    (create_app c).rules.length = 2 ∧
    firstMatch (create_app c).rules [] = some (.index, []) ∧
    firstMatch (create_app c).rules ["add", "2", "3"] = some (.add, [2, 3]) :=
  ⟨rfl, rfl, rfl, rfl⟩

/-- C8: the int converter matches only digit strings, so a segment
containing a minus sign is rejected and such `/add` requests 404 without
invoking `add`; every invocation of `add` therefore receives non-negative
operands, and its reported result `num1 + num2 + 1` is at least 1. -/
theorem C8_nonnegative_operands {α : Type} (c : Option α) :
    (∀ s : String, '-' ∈ s.data → intConverterAccepts s = false) ∧
    (∀ x y : String, '-' ∈ x.data ∨ '-' ∈ y.data →
      firstMatch (create_app c).rules ["add", x, y] = none ∧
      dispatch (create_app c) ["add", x, y] = notFoundResponse) ∧
    (∀ (path : List String) (n1 n2 : Int),
      firstMatch (create_app c).rules path = some (.add, [n1, n2]) →
      0 ≤ n1 ∧ 0 ≤ n2 ∧ 1 ≤ n1 + n2 + 1) := by
  have hrej : ∀ s : String, '-' ∈ s.data → intConverterAccepts s = false := by
    intro s hs
    rw [intConverterAccepts, Bool.and_eq_false_iff]
    right
    rw [List.all_eq_false]
    exact ⟨'-', hs, by decide⟩
  refine ⟨hrej, ?_, ?_⟩
  · intro x y h
    have hor : intConverterAccepts x = false ∨ intConverterAccepts y = false := by
      rcases h with h | h
      · exact Or.inl (hrej x h)
      · exact Or.inr (hrej y h)
    have hnone := firstMatch_add_rejected c x y hor
    refine ⟨hnone, ?_⟩
    rw [dispatch, hnone]
  · intro path n1 n2 hm
    rcases firstMatch_inv c path .add [n1, n2] hm with ⟨_, hvs, _⟩ | ⟨x, y, _, _, _, _, hvs⟩
    · exact absurd hvs (by simp)
    · have h1 : n1 = intConverterValue x := by
        have := congrArg (fun l => List.getD l 0 (0 : Int)) hvs
        simpa using this
      have h2 : n2 = intConverterValue y := by
        have := congrArg (fun l => List.getD l 1 (0 : Int)) hvs
        simpa using this
      have hx := intConverterValue_nonneg x
      have hy := intConverterValue_nonneg y
      rw [h1, h2]
      exact ⟨hx, hy, by omega⟩

/-- C8 witness: `"-1"` is rejected so the add path with segments `-1`, `5`
is a no-match 404, and a
matched invocation (`/add/2/3`) has non-negative operands and result at
least 1. -/
theorem C8_nonnegative_operands_witness :
    (firstMatch (create_app (α := Unit)).rules ["add", "-1", "5"] = none ∧
      dispatch (create_app (α := Unit)) ["add", "-1", "5"] = notFoundResponse) ∧
    (0 ≤ (2 : Int) ∧ 0 ≤ (3 : Int) ∧ 1 ≤ (2 : Int) + 3 + 1) :=
  ⟨(C8_nonnegative_operands (none : Option Unit)).2.1 "-1" "5" (Or.inl (by decide)),
   (C8_nonnegative_operands (none : Option Unit)).2.2 ["add", "2", "3"] 2 3 (by decide)⟩

/-- C9: the `config` argument of `create_app` is never read: any two config
values (of any types, including `none` for Python `None`) produce equal
applications, with identical registered rules and identical responses to
every request. -/
theorem C9_config_ignored {α β : Type} (c₁ : Option α) (c₂ : Option β) :
    create_app c₁ = create_app c₂ ∧
    (create_app c₁).rules = (create_app c₂).rules ∧
    ∀ path : List String, dispatch (create_app c₁) path = dispatch (create_app c₂) path :=
  ⟨rfl, rfl, fun _ => rfl⟩

/-- C10: for operands accepted by the converter, the computed value is
commutative — the responses to `/add/a/b` and `/add/b/a` both display the
same sum `a + b + 1` — while the full bodies differ whenever `a ≠ b`,
because the operands are displayed in request order. -/
theorem C10_commutative_sum {α : Type} (c : Option α) (a b : Nat) :
    dispatch (create_app c) ["add", Nat.repr a, Nat.repr b] =
      { status := 200,
        body := Nat.repr a ++ " + " ++ Nat.repr b ++ " = " ++ Nat.repr (a + b + 1) } ∧
    dispatch (create_app c) ["add", Nat.repr b, Nat.repr a] =
      { status := 200,
        body := Nat.repr b ++ " + " ++ Nat.repr a ++ " = " ++ Nat.repr (a + b + 1) } ∧
    (a ≠ b →
      (dispatch (create_app c) ["add", Nat.repr a, Nat.repr b]).body ≠
        (dispatch (create_app c) ["add", Nat.repr b, Nat.repr a]).body) := by
  have hab := dispatch_add_repr c a b
  have hba := dispatch_add_repr c b a
  rw [Nat.add_comm b a] at hba
  refine ⟨hab, hba, ?_⟩
  intro hne hbody
  rw [hab, hba] at hbody
  exact hne (add_repr_inj a b (a + b + 1) (a + b + 1) hbody)

/-- C10 witness: at `a = 2`, `b = 3` the bodies of `/add/2/3` and
`/add/3/2` differ. -/
theorem C10_commutative_sum_witness :
    (dispatch (create_app (α := Unit)) ["add", Nat.repr 2, Nat.repr 3]).body ≠
      (dispatch (create_app (α := Unit)) ["add", Nat.repr 3, Nat.repr 2]).body :=
  (C10_commutative_sum (none : Option Unit) 2 3).2.2 (by decide)
